import Mathlib

/-!
Verification of the redio-contract client SDK: the deterministic address
derivation layer, the instruction encoders for the six contract operations
(`src/sdk/rediopy/contract/__init__.py`), and the IDL-fixup transform
(`src/sdk/genpy/main.py`).

Bytes are modelled as `Nat` (each in `[0, 256)`), byte strings as `List Nat`,
Python unbounded integers as `Int`, and Python exceptions as `none` in
`Option`-valued functions.
-/

namespace Redio

/-! ### Byte-level primitives

`natToLeBytes w n` is the little-endian `w`-byte encoding of `n`;
`packLe w v` models Python `struct.pack` with format `<H` (`w = 2`),
`<I` (`w = 4`), `<Q` (`w = 8`): it fails (raises `struct.error`) exactly
when the value is negative or does not fit in `w` bytes. -/

def natToLeBytes : Nat → Nat → List Nat
  | 0, _ => []
  | w + 1, n => n % 256 :: natToLeBytes w (n / 256)

def packLe (w : Nat) (v : Int) : Option (List Nat) :=
  if 0 ≤ v ∧ v.toNat < 2 ^ (8 * w) then some (natToLeBytes w v.toNat) else none

/-- Little-endian interpretation of a byte list as a natural number. -/
def leDecode (bs : List Nat) : Nat :=
  bs.foldr (fun b acc => b + 256 * acc) 0

/-- UTF-8 encoding of a single Unicode code point (Python `chr(c).encode("utf-8")`;
Lean `Char` already excludes surrogates). -/
def utf8EncodeCp (c : Nat) : List Nat :=
  if c < 0x80 then [c]
  else if c < 0x800 then
    [0xC0 + c / 64, 0x80 + c % 64]
  else if c < 0x10000 then
    [0xE0 + c / 4096, 0x80 + c / 64 % 64, 0x80 + c % 64]
  else
    [0xF0 + c / 262144, 0x80 + c / 4096 % 64, 0x80 + c / 64 % 64, 0x80 + c % 64]

/-- Python `s.encode("utf-8")` as a byte list. -/
def strBytes (s : String) : List Nat :=
  s.data.foldr (fun c acc => utf8EncodeCp c.toNat ++ acc) []

/-! ### Base58 decoding of the address constants

The source stores its program identifiers as base58 strings
(`Pubkey.from_string`); a Solana address is exactly 32 bytes. -/

def base58Chars : List Char :=
  "123456789ABCDEFGHJKLMNPQRSTUVWXYZabcdefghijkmnopqrstuvwxyz".data

def base58ToNat (s : String) : Nat :=
  s.data.foldl (fun acc c => acc * 58 + base58Chars.indexOf c) 0

def natToBeBytes : Nat → Nat → List Nat
  | 0, _ => []
  | w + 1, n => natToBeBytes w (n / 256) ++ [n % 256]

def base58Decode32 (s : String) : List Nat :=
  natToBeBytes 32 (base58ToNat s)

/-! ### Program-derived addresses

`Pubkey.find_program_address` (the `solders` library, an external
cryptographic collaborator of this SDK) hashes
`concat(seeds) ++ [bump] ++ program_id ++ "ProgramDerivedAddress"` with
SHA-256 for bump = 255, 254, …, 0 and returns the first digest that is not
an ed25519 curve point, together with that bump. The two cryptographic
primitives (SHA-256 and the on-curve test) are external to the repository,
so the derivation layer is parameterised over them; everything proved below
holds for every choice of primitives. -/

structure PdaPrimitives where
  sha256 : List Nat → List Nat
  isOnCurve : List Nat → Bool

def pdaHash (P : PdaPrimitives) (seeds : List (List Nat)) (bump : Nat)
    (programId : List Nat) : List Nat :=
  P.sha256 (seeds.flatten ++ [bump] ++ programId ++ strBytes "ProgramDerivedAddress")

def tryBumps (P : PdaPrimitives) (seeds : List (List Nat)) (programId : List Nat) :
    List Nat → Option (List Nat × Nat)
  | [] => none
  | b :: rest =>
    let h := pdaHash P seeds b programId
    if P.isOnCurve h then tryBumps P seeds programId rest else some (h, b)

def findProgramAddress (P : PdaPrimitives) (seeds : List (List Nat))
    (programId : List Nat) : Option (List Nat × Nat) :=
  tryBumps P seeds programId (List.range 256).reverse

/-! ### Contract constants (`RedioContract`) -/

def PROGRAM_ID : List Nat :=
  base58Decode32 "CFQoHeX28aKhpgsLCSGM2zpou6RkRrwRoHVToWS2B6tQ"

def TOKEN_PROGRAM_ID : List Nat :=
  base58Decode32 "TokenkegQfeZyiNwAJbNbGKPFXCWuBvf9Ss623VQ5DA"

def ASSOCIATED_TOKEN_PROGRAM_ID : List Nat :=
  base58Decode32 "ATokenGPvbdGVxr1b2hvZbsiqW5xWH25efTNsLJA8knL"

def SYS_PROGRAM_ID : List Nat :=
  base58Decode32 "11111111111111111111111111111111"

/-- The `DISCRIMINATORS` table of `RedioContract`, keyed by operation name. -/
def DISCRIMINATORS (op : String) : List Nat :=
  if op = "initialize_pool" then [95, 180, 10, 172, 84, 174, 232, 40]
  else if op = "add_affiliate" then [221, 239, 60, 159, 213, 45, 221, 87]
  else if op = "process_sale" then [103, 228, 248, 104, 78, 46, 193, 82]
  else if op = "remove_affiliate" then [146, 218, 182, 122, 118, 1, 69, 31]
  else if op = "deposit_escrow" then [226, 112, 158, 176, 178, 118, 153, 128]
  else if op = "withdraw_escrow" then [81, 84, 226, 128, 245, 47, 96, 104]
  else []

/-! ### Data model -/

structure AccountMeta where
  pubkey : List Nat
  is_signer : Bool
  is_writable : Bool
deriving DecidableEq

structure Instruction where
  program_id : List Nat
  data : List Nat
  accounts : List AccountMeta
deriving DecidableEq

instance : Inhabited Instruction := ⟨⟨[], [], []⟩⟩

/-- A signing keypair; the SDK only ever reads its public address. -/
structure Keypair where
  pubkey : List Nat

/-! ### Address derivations -/

def find_pool_pda (P : PdaPrimitives) (merchant : List Nat) :
    Option (List Nat × Nat) :=
  findProgramAddress P [strBytes "pool", merchant] PROGRAM_ID

def find_escrow_authority_pda (P : PdaPrimitives) (pool : List Nat) :
    Option (List Nat × Nat) :=
  findProgramAddress P [strBytes "escrow_authority", pool] PROGRAM_ID

def find_affiliate_pda (P : PdaPrimitives) (pool wallet : List Nat) :
    Option (List Nat × Nat) :=
  findProgramAddress P [strBytes "affiliate", pool, wallet] PROGRAM_ID

def find_associated_token_address (P : PdaPrimitives) (owner mint : List Nat) :
    Option (List Nat) :=
  (findProgramAddress P [owner, TOKEN_PROGRAM_ID, mint]
    ASSOCIATED_TOKEN_PROGRAM_ID).map Prod.fst

/-! ### Instruction builders

Each builder mirrors the Python method line by line: derive the needed
addresses (a raised derivation error propagates as `none`), build
`data = discriminator ++ packed arguments` (a `struct.error` propagates as
`none`), then assemble the ordered account list. -/

def initialize_pool_ix (P : PdaPrimitives) (merchant : Keypair)
    (usdc_mint : List Nat) (commission_rate initial_deposit : Int) :
    Option Instruction :=
  match find_pool_pda P merchant.pubkey with
  | none => none
  | some (pool_pda, _) =>
  match find_escrow_authority_pda P pool_pda with
  | none => none
  | some (escrow_authority, _) =>
  match find_associated_token_address P merchant.pubkey usdc_mint with
  | none => none
  | some merchant_usdc =>
  match find_associated_token_address P escrow_authority usdc_mint with
  | none => none
  | some escrow_usdc =>
  match packLe 2 commission_rate with
  | none => none
  | some d1 =>
  match packLe 8 initial_deposit with
  | none => none
  | some d2 =>
    some { program_id := PROGRAM_ID
           data := DISCRIMINATORS "initialize_pool" ++ d1 ++ d2
           accounts := [
             ⟨pool_pda, false, true⟩,
             ⟨merchant.pubkey, true, true⟩,
             ⟨merchant_usdc, false, true⟩,
             ⟨escrow_authority, false, false⟩,
             ⟨escrow_usdc, false, true⟩,
             ⟨usdc_mint, false, false⟩,
             ⟨TOKEN_PROGRAM_ID, false, false⟩,
             ⟨ASSOCIATED_TOKEN_PROGRAM_ID, false, false⟩,
             ⟨SYS_PROGRAM_ID, false, false⟩] }

def add_affiliate_ix (P : PdaPrimitives) (merchant : Keypair)
    (affiliate_wallet : List Nat) (ref_id : String) : Option Instruction :=
  match find_pool_pda P merchant.pubkey with
  | none => none
  | some (pool_pda, _) =>
  match find_affiliate_pda P pool_pda affiliate_wallet with
  | none => none
  | some (affiliate_pda, _) =>
  let ref_id_bytes := strBytes ref_id
  match packLe 4 (ref_id_bytes.length : Int) with
  | none => none
  | some lenBytes =>
    some { program_id := PROGRAM_ID
           data := DISCRIMINATORS "add_affiliate" ++ lenBytes ++ ref_id_bytes
           accounts := [
             ⟨pool_pda, false, false⟩,
             ⟨affiliate_pda, false, true⟩,
             ⟨affiliate_wallet, false, false⟩,
             ⟨merchant.pubkey, true, true⟩,
             ⟨SYS_PROGRAM_ID, false, false⟩] }

def process_sale_ix (P : PdaPrimitives) (authority : Keypair)
    (merchant affiliate_wallet usdc_mint : List Nat) (sale_amount : Int) :
    Option Instruction :=
  match find_pool_pda P merchant with
  | none => none
  | some (pool_pda, _) =>
  match find_affiliate_pda P pool_pda affiliate_wallet with
  | none => none
  | some (affiliate_pda, _) =>
  match find_escrow_authority_pda P pool_pda with
  | none => none
  | some (escrow_authority, _) =>
  match find_associated_token_address P escrow_authority usdc_mint with
  | none => none
  | some escrow_usdc =>
  match find_associated_token_address P affiliate_wallet usdc_mint with
  | none => none
  | some affiliate_usdc =>
  match packLe 8 sale_amount with
  | none => none
  | some d1 =>
    some { program_id := PROGRAM_ID
           data := DISCRIMINATORS "process_sale" ++ d1
           accounts := [
             ⟨pool_pda, false, true⟩,
             ⟨affiliate_pda, false, true⟩,
             ⟨affiliate_wallet, false, true⟩,
             ⟨escrow_authority, false, false⟩,
             ⟨escrow_usdc, false, true⟩,
             ⟨affiliate_usdc, false, true⟩,
             ⟨usdc_mint, false, false⟩,
             ⟨authority.pubkey, true, true⟩,
             ⟨TOKEN_PROGRAM_ID, false, false⟩,
             ⟨ASSOCIATED_TOKEN_PROGRAM_ID, false, false⟩,
             ⟨SYS_PROGRAM_ID, false, false⟩] }

def remove_affiliate_ix (P : PdaPrimitives) (merchant : Keypair)
    (affiliate_wallet : List Nat) : Option Instruction :=
  match find_pool_pda P merchant.pubkey with
  | none => none
  | some (pool_pda, _) =>
  match find_affiliate_pda P pool_pda affiliate_wallet with
  | none => none
  | some (affiliate_pda, _) =>
    some { program_id := PROGRAM_ID
           data := DISCRIMINATORS "remove_affiliate"
           accounts := [
             ⟨pool_pda, false, false⟩,
             ⟨affiliate_pda, false, true⟩,
             ⟨affiliate_wallet, false, true⟩,
             ⟨merchant.pubkey, true, false⟩] }

def deposit_escrow_ix (P : PdaPrimitives) (merchant : Keypair)
    (usdc_mint : List Nat) (amount : Int) : Option Instruction :=
  match find_pool_pda P merchant.pubkey with
  | none => none
  | some (pool_pda, _) =>
  match find_escrow_authority_pda P pool_pda with
  | none => none
  | some (escrow_authority, _) =>
  match find_associated_token_address P merchant.pubkey usdc_mint with
  | none => none
  | some merchant_usdc =>
  match find_associated_token_address P escrow_authority usdc_mint with
  | none => none
  | some escrow_usdc =>
  match packLe 8 amount with
  | none => none
  | some d1 =>
    some { program_id := PROGRAM_ID
           data := DISCRIMINATORS "deposit_escrow" ++ d1
           accounts := [
             ⟨pool_pda, false, false⟩,
             ⟨merchant.pubkey, true, true⟩,
             ⟨merchant_usdc, false, true⟩,
             ⟨escrow_authority, false, false⟩,
             ⟨escrow_usdc, false, true⟩,
             ⟨usdc_mint, false, false⟩,
             ⟨TOKEN_PROGRAM_ID, false, false⟩] }

def withdraw_escrow_ix (P : PdaPrimitives) (merchant : Keypair)
    (usdc_mint : List Nat) (amount : Int) : Option Instruction :=
  match find_pool_pda P merchant.pubkey with
  | none => none
  | some (pool_pda, _) =>
  match find_escrow_authority_pda P pool_pda with
  | none => none
  | some (escrow_authority, _) =>
  match find_associated_token_address P merchant.pubkey usdc_mint with
  | none => none
  | some merchant_usdc =>
  match find_associated_token_address P escrow_authority usdc_mint with
  | none => none
  | some escrow_usdc =>
  match packLe 8 amount with
  | none => none
  | some d1 =>
    some { program_id := PROGRAM_ID
           data := DISCRIMINATORS "withdraw_escrow" ++ d1
           accounts := [
             ⟨pool_pda, false, false⟩,
             ⟨merchant.pubkey, true, true⟩,
             ⟨merchant_usdc, false, true⟩,
             ⟨escrow_authority, false, false⟩,
             ⟨escrow_usdc, false, true⟩,
             ⟨usdc_mint, false, false⟩,
             ⟨TOKEN_PROGRAM_ID, false, false⟩] }

/-- The (signer, writable) flags of an instruction's account list, in order. -/
def flagsOf (ix : Instruction) : List (Bool × Bool) :=
  ix.accounts.map fun a => (a.is_signer, a.is_writable)

end Redio

namespace Genpy

/-! ### The IDL-fixup transform (`src/sdk/genpy/main.py`)

JSON values are modelled by `JVal`; a Python `dict` (unique keys, insertion
order preserved) is an association list. -/

inductive JVal where
  | jstr : String → JVal
  | jnum : Int → JVal
  | jbool : Bool → JVal
  | jnull : JVal
  | jarr : List JVal → JVal
  | jobj : List (String × JVal) → JVal

def jlookup : List (String × JVal) → String → Option JVal
  | [], _ => none
  | (k1, v) :: rest, k => if k1 = k then some v else jlookup rest k

/-- Python `d.pop(k, None)`: the dictionary without key `k`. -/
def jremove : List (String × JVal) → String → List (String × JVal)
  | [], _ => []
  | (k1, v) :: rest, k =>
    if k1 = k then jremove rest k else (k1, v) :: jremove rest k

/-- Python `d[k] = v` for a key already present: update in place, keep order. -/
def jset (kvs : List (String × JVal)) (k : String) (v : JVal) :
    List (String × JVal) :=
  kvs.map fun kv => if kv.1 = k then (k, v) else kv

/-- Python `d.setdefault(k, v)`: append `(k, v)` only when `k` is missing. -/
def jsetdefault (kvs : List (String × JVal)) (k : String) (v : JVal) :
    List (String × JVal) :=
  if (jlookup kvs k).isSome then kvs else kvs ++ [(k, v)]

def jhas (kvs : List (String × JVal)) (k : String) : Bool :=
  (jlookup kvs k).isSome

/-- Python `s.split(chr(46))[0]`: the part of `s` before the first dot. -/
def splitFirst (s : String) : String :=
  (s.data.takeWhile fun c => c ≠ '.').asString

def allowedKeys : List String := ["name", "writable", "signer", "pda", "address"]

/-- The dict comprehension of `fix_account`: keep only allowed keys. -/
def jfilterAllowed : List (String × JVal) → List (String × JVal)
  | [] => []
  | (k1, v) :: rest =>
    if k1 ∈ allowedKeys then (k1, v) :: jfilterAllowed rest
    else jfilterAllowed rest

/-- The body of the `for seed in pda[...]` loop of `fix_account`: a seed of
kind "account" carrying a (string) path has the path truncated to its first
dot component, and every seed dictionary loses its nested "account" field.
Non-dictionary seeds, and "account"-kind seeds whose path is not a string,
would raise in the source; the claims below only concern the well-formed
shapes, which this definition follows exactly. -/
def fixSeed (seed : JVal) : JVal :=
  match seed with
  | .jobj skvs =>
    let skvs1 :=
      match jlookup skvs "kind", jlookup skvs "path" with
      | some (.jstr k), some (.jstr p) =>
        if k = "account" then jset skvs "path" (.jstr (splitFirst p)) else skvs
      | _, _ => skvs
    .jobj (jremove skvs1 "account")
  | v => v

/-- The seeds loop of `fix_account`: map `fixSeed` over the "seeds" list
when it is a list (a non-list "seeds" value, or a missing key, leaves the
dictionary unchanged, as the source's membership test then fails). -/
def seedsStep (pkvs : List (String × JVal)) : List (String × JVal) :=
  match jlookup pkvs "seeds" with
  | some (.jarr seeds) => jset pkvs "seeds" (.jarr (seeds.map fixSeed))
  | _ => pkvs

/-- The "program" check of `fix_account`: drop the "program" entry unless
it is a dictionary holding both a "kind" and a "value" key. -/
def progStep (pkvs1 : List (String × JVal)) : List (String × JVal) :=
  match jlookup pkvs1 "program" with
  | some (.jobj prog) =>
    if jhas prog "kind" && jhas prog "value" then pkvs1
    else jremove pkvs1 "program"
  | some _ => jremove pkvs1 "program"
  | none => pkvs1

/-- The `pda`-massaging part of `fix_account`: the seeds loop followed by
the "program" check. -/
def fixPda (pkvs : List (String × JVal)) : List (String × JVal) :=
  progStep (seedsStep pkvs)

/-- The `pda` entry replacement of `fix_account`: when the (filtered,
defaulted) dictionary has a dictionary-valued "pda" entry, replace it by
its `fixPda` image; any other shape is left as is. -/
def pdaStep (kvs3 : List (String × JVal)) : List (String × JVal) :=
  match jlookup kvs3 "pda" with
  | some (.jobj pkvs) => jset kvs3 "pda" (.jobj (fixPda pkvs))
  | _ => kvs3

/-- `fix_account` from `src/sdk/genpy/main.py`: a string account passes
through; a dictionary account is filtered to the allowed keys, given
default `writable`/`signer` entries, and has its (dictionary) `pda` entry
massaged by `fixPda`. -/
def fix_account (account : JVal) : JVal :=
  match account with
  | .jstr s => .jstr s
  | .jobj kvs =>
    .jobj (pdaStep (jsetdefault (jsetdefault (jfilterAllowed kvs)
      "writable" (.jbool false)) "signer" (.jbool false)))
  | v => v

/-! ### Concrete IDL fixtures for closed-input checks -/

def seedEx : List (String × JVal) :=
  [("kind", .jstr "account"), ("path", .jstr "pool.merchant"),
   ("account", .jstr "MerchantPool")]

def pdaEx : List (String × JVal) :=
  [("seeds", .jarr [.jobj seedEx]), ("program", .jstr "bad")]

def acctEx : List (String × JVal) :=
  [("name", .jstr "affiliate"), ("docs", .jarr []), ("pda", .jobj pdaEx)]

end Genpy

namespace Redio

/-! ### Concrete evaluation fixtures

A fixed choice of the external cryptographic primitives and concrete
argument values, used to exercise the theorems on closed inputs. With
`testPrims` every derivation succeeds at bump 255. -/

def testPrims : PdaPrimitives :=
  ⟨fun _ => List.replicate 32 0, fun _ => false⟩

def merchantKp : Keypair := ⟨List.replicate 32 1⟩

def mintPk : List Nat := List.replicate 32 2

def walletPk : List Nat := List.replicate 32 3

def ixInit : Instruction :=
  (initialize_pool_ix testPrims merchantKp mintPk 500 1000000).getD default

def ixAdd : Instruction :=
  (add_affiliate_ix testPrims merchantKp walletPk "AFF001").getD default

def ixSale : Instruction :=
  (process_sale_ix testPrims merchantKp merchantKp.pubkey walletPk mintPk 42).getD default

def ixRem : Instruction :=
  (remove_affiliate_ix testPrims merchantKp walletPk).getD default

def ixDep : Instruction :=
  (deposit_escrow_ix testPrims merchantKp mintPk 7).getD default

def ixWith : Instruction :=
  (withdraw_escrow_ix testPrims merchantKp mintPk 9).getD default

/-! ### Helper lemmas -/

theorem leDecode_nil : leDecode [] = 0 := rfl

theorem leDecode_cons (b : Nat) (bs : List Nat) :
    leDecode (b :: bs) = b + 256 * leDecode bs := rfl

/-- Little-endian packing followed by little-endian decoding is the
identity on values that fit the field width. -/
theorem leDecode_natToLeBytes (w : Nat) :
    ∀ n : Nat, n < 2 ^ (8 * w) → leDecode (natToLeBytes w n) = n := by
  induction w with
  | zero =>
    intro n hn
    interval_cases n
    rfl
  | succ w ih =>
    intro n hn
    have h2 : (2 : ℕ) ^ (8 * (w + 1)) = 2 ^ (8 * w) * 256 := by ring
    rw [h2] at hn
    have hdiv : n / 256 < 2 ^ (8 * w) := by omega
    rw [natToLeBytes, leDecode_cons, ih (n / 256) hdiv]
    omega

theorem natToLeBytes_length (w : Nat) : ∀ n, (natToLeBytes w n).length = w := by
  induction w with
  | zero => intro n; rfl
  | succ w ih => intro n; simp [natToLeBytes, ih]

theorem take_len_append (l1 l2 : List Nat) : (l1 ++ l2).take l1.length = l1 := by
  induction l1 with
  | nil => rfl
  | cons a l ih => simp [ih]

theorem drop_len_append (l1 l2 : List Nat) : (l1 ++ l2).drop l1.length = l2 := by
  induction l1 with
  | nil => rfl
  | cons a l ih => simp [ih]

theorem take_append_of_len (l1 l2 : List Nat) (n : Nat) (h : l1.length = n) :
    (l1 ++ l2).take n = l1 := by
  subst h
  exact take_len_append l1 l2

theorem drop_append_of_len (l1 l2 : List Nat) (n : Nat) (h : l1.length = n) :
    (l1 ++ l2).drop n = l2 := by
  subst h
  exact drop_len_append l1 l2

/-! ### Claims -/

/-- Claim C4: every derivation function (find_pool_pda,
find_escrow_authority_pda, find_affiliate_pda,
find_associated_token_address) is deterministic: for any fixed argument
addresses (and any choice of the external cryptographic primitives), two
calls return identical results — the embedded functions are pure, with no
dependence on any hidden state. -/
theorem derivations_deterministic :
    ∀ (P : PdaPrimitives) (merchant pool wallet owner mint : List Nat),
      find_pool_pda P merchant = find_pool_pda P merchant ∧
      find_escrow_authority_pda P pool = find_escrow_authority_pda P pool ∧
      find_affiliate_pda P pool wallet = find_affiliate_pda P pool wallet ∧
      find_associated_token_address P owner mint =
        find_associated_token_address P owner mint :=
  fun _ _ _ _ _ _ => ⟨rfl, rfl, rfl, rfl⟩

/-- Claim C6: the derivation seed tuples are exactly: tag "pool" + merchant
under the program identifier; tag "escrow_authority" + pool under the
program identifier; tag "affiliate" + pool + wallet under the program
identifier; and owner + token-program identifier + mint under the fixed
associated-token owning program (the tags written out as their ASCII
bytes). -/
theorem derivation_seed_tuples :
    ∀ (P : PdaPrimitives) (merchant pool wallet owner mint : List Nat),
      find_pool_pda P merchant =
        findProgramAddress P [[112, 111, 111, 108], merchant] PROGRAM_ID ∧
      find_escrow_authority_pda P pool =
        findProgramAddress P
          [[101, 115, 99, 114, 111, 119, 95, 97, 117, 116, 104, 111, 114,
            105, 116, 121], pool] PROGRAM_ID ∧
      find_affiliate_pda P pool wallet =
        findProgramAddress P
          [[97, 102, 102, 105, 108, 105, 97, 116, 101], pool, wallet]
          PROGRAM_ID ∧
      find_associated_token_address P owner mint =
        (findProgramAddress P [owner, TOKEN_PROGRAM_ID, mint]
          ASSOCIATED_TOKEN_PROGRAM_ID).map Prod.fst := by
  intro P merchant pool wallet owner mint
  refine ⟨?_, ?_, ?_, rfl⟩
  · rw [find_pool_pda, show strBytes "pool" = [112, 111, 111, 108] from by decide]
  · rw [find_escrow_authority_pda,
      show strBytes "escrow_authority" =
        [101, 115, 99, 114, 111, 119, 95, 97, 117, 116, 104, 111, 114, 105,
         116, 121] from by decide]
  · rw [find_affiliate_pda,
      show strBytes "affiliate" =
        [97, 102, 102, 105, 108, 105, 97, 116, 101] from by decide]

/-- Claim C1: for each of the six instruction builders and every input, the
account list of the returned instruction has exactly the length, order and
per-slot (is_signer, is_writable) flags of the table in spec section 4.2:
initialize-pool 9 accounts pool(W), merchant(S,W), merchant-token(W),
escrow-authority(-), escrow-token(W), mint(-), token-program(-),
associated-token-program(-), system-program(-); add-affiliate 5 accounts;
process-sale 11 accounts; remove-affiliate 4 accounts ending with
merchant(S) non-writable; deposit-escrow and withdraw-escrow 7 accounts. -/
theorem account_lists_match_table :
    (∀ (P : PdaPrimitives) (m : Keypair) (mint : List Nat) (r d : Int)
        (ix : Instruction), initialize_pool_ix P m mint r d = some ix →
        flagsOf ix = [(false, true), (true, true), (false, true),
          (false, false), (false, true), (false, false), (false, false),
          (false, false), (false, false)]) ∧
    (∀ (P : PdaPrimitives) (m : Keypair) (w : List Nat) (s : String)
        (ix : Instruction), add_affiliate_ix P m w s = some ix →
        flagsOf ix = [(false, false), (false, true), (false, false),
          (true, true), (false, false)]) ∧
    (∀ (P : PdaPrimitives) (a : Keypair) (mc w mint : List Nat) (amt : Int)
        (ix : Instruction), process_sale_ix P a mc w mint amt = some ix →
        flagsOf ix = [(false, true), (false, true), (false, true),
          (false, false), (false, true), (false, true), (false, false),
          (true, true), (false, false), (false, false), (false, false)]) ∧
    (∀ (P : PdaPrimitives) (m : Keypair) (w : List Nat) (ix : Instruction),
        remove_affiliate_ix P m w = some ix →
        flagsOf ix = [(false, false), (false, true), (false, true),
          (true, false)]) ∧
    (∀ (P : PdaPrimitives) (m : Keypair) (mint : List Nat) (amt : Int)
        (ix : Instruction), deposit_escrow_ix P m mint amt = some ix →
        flagsOf ix = [(false, false), (true, true), (false, true),
          (false, false), (false, true), (false, false), (false, false)]) ∧
    (∀ (P : PdaPrimitives) (m : Keypair) (mint : List Nat) (amt : Int)
        (ix : Instruction), withdraw_escrow_ix P m mint amt = some ix →
        flagsOf ix = [(false, false), (true, true), (false, true),
          (false, false), (false, true), (false, false), (false, false)]) := by
  refine ⟨?_, ?_, ?_, ?_, ?_, ?_⟩
  · intro P m mint r d ix h
    unfold initialize_pool_ix at h
    repeat' split at h
    all_goals try exact Option.noConfusion h
    injection h with h
    subst h
    rfl
  · intro P m w s ix h
    unfold add_affiliate_ix at h
    dsimp only at h
    repeat' split at h
    all_goals try exact Option.noConfusion h
    injection h with h
    subst h
    rfl
  · intro P a mc w mint amt ix h
    unfold process_sale_ix at h
    repeat' split at h
    all_goals try exact Option.noConfusion h
    injection h with h
    subst h
    rfl
  · intro P m w ix h
    unfold remove_affiliate_ix at h
    repeat' split at h
    all_goals try exact Option.noConfusion h
    injection h with h
    subst h
    rfl
  · intro P m mint amt ix h
    unfold deposit_escrow_ix at h
    repeat' split at h
    all_goals try exact Option.noConfusion h
    injection h with h
    subst h
    rfl
  · intro P m mint amt ix h
    unfold withdraw_escrow_ix at h
    repeat' split at h
    all_goals try exact Option.noConfusion h
    injection h with h
    subst h
    rfl

set_option maxRecDepth 100000 in
/-- Concrete check of C1: the six builders, run on closed inputs with the
test primitives, return exactly the tabulated flag lists. -/
theorem account_lists_match_table_witness :
    flagsOf ixInit = [(false, true), (true, true), (false, true),
      (false, false), (false, true), (false, false), (false, false),
      (false, false), (false, false)] ∧
    flagsOf ixAdd = [(false, false), (false, true), (false, false),
      (true, true), (false, false)] ∧
    flagsOf ixSale = [(false, true), (false, true), (false, true),
      (false, false), (false, true), (false, true), (false, false),
      (true, true), (false, false), (false, false), (false, false)] ∧
    flagsOf ixRem = [(false, false), (false, true), (false, true),
      (true, false)] ∧
    flagsOf ixDep = [(false, false), (true, true), (false, true),
      (false, false), (false, true), (false, false), (false, false)] ∧
    flagsOf ixWith = [(false, false), (true, true), (false, true),
      (false, false), (false, true), (false, false), (false, false)] :=
  ⟨account_lists_match_table.1 testPrims merchantKp mintPk 500 1000000 ixInit rfl,
   account_lists_match_table.2.1 testPrims merchantKp walletPk "AFF001" ixAdd rfl,
   account_lists_match_table.2.2.1 testPrims merchantKp merchantKp.pubkey
     walletPk mintPk 42 ixSale rfl,
   account_lists_match_table.2.2.2.1 testPrims merchantKp walletPk ixRem rfl,
   account_lists_match_table.2.2.2.2.1 testPrims merchantKp mintPk 7 ixDep rfl,
   account_lists_match_table.2.2.2.2.2 testPrims merchantKp mintPk 9 ixWith rfl⟩

/-- Claim C5: the six opcode discriminators are each exactly 8 bytes long
and pairwise distinct, and for every input the data of the instruction
returned by each of the six builders begins with the discriminator of that
builder's operation. -/
theorem discriminator_tags :
    ((DISCRIMINATORS "initialize_pool").length = 8 ∧
     (DISCRIMINATORS "add_affiliate").length = 8 ∧
     (DISCRIMINATORS "process_sale").length = 8 ∧
     (DISCRIMINATORS "remove_affiliate").length = 8 ∧
     (DISCRIMINATORS "deposit_escrow").length = 8 ∧
     (DISCRIMINATORS "withdraw_escrow").length = 8) ∧
    List.Pairwise (fun a b => a ≠ b)
      [DISCRIMINATORS "initialize_pool", DISCRIMINATORS "add_affiliate",
       DISCRIMINATORS "process_sale", DISCRIMINATORS "remove_affiliate",
       DISCRIMINATORS "deposit_escrow", DISCRIMINATORS "withdraw_escrow"] ∧
    (∀ (P : PdaPrimitives) (m : Keypair) (mint : List Nat) (r d : Int)
        (ix : Instruction), initialize_pool_ix P m mint r d = some ix →
        ix.data.take 8 = DISCRIMINATORS "initialize_pool") ∧
    (∀ (P : PdaPrimitives) (m : Keypair) (w : List Nat) (s : String)
        (ix : Instruction), add_affiliate_ix P m w s = some ix →
        ix.data.take 8 = DISCRIMINATORS "add_affiliate") ∧
    (∀ (P : PdaPrimitives) (a : Keypair) (mc w mint : List Nat) (amt : Int)
        (ix : Instruction), process_sale_ix P a mc w mint amt = some ix →
        ix.data.take 8 = DISCRIMINATORS "process_sale") ∧
    (∀ (P : PdaPrimitives) (m : Keypair) (w : List Nat) (ix : Instruction),
        remove_affiliate_ix P m w = some ix →
        ix.data.take 8 = DISCRIMINATORS "remove_affiliate") ∧
    (∀ (P : PdaPrimitives) (m : Keypair) (mint : List Nat) (amt : Int)
        (ix : Instruction), deposit_escrow_ix P m mint amt = some ix →
        ix.data.take 8 = DISCRIMINATORS "deposit_escrow") ∧
    (∀ (P : PdaPrimitives) (m : Keypair) (mint : List Nat) (amt : Int)
        (ix : Instruction), withdraw_escrow_ix P m mint amt = some ix →
        ix.data.take 8 = DISCRIMINATORS "withdraw_escrow") := by
  refine ⟨by decide, by decide, ?_, ?_, ?_, ?_, ?_, ?_⟩
  · intro P m mint r d ix h
    unfold initialize_pool_ix at h
    repeat' split at h
    all_goals try exact Option.noConfusion h
    injection h with h
    subst h
    rw [List.append_assoc]
    exact take_append_of_len _ _ 8 (by decide)
  · intro P m w s ix h
    unfold add_affiliate_ix at h
    dsimp only at h
    repeat' split at h
    all_goals try exact Option.noConfusion h
    injection h with h
    subst h
    rw [List.append_assoc]
    exact take_append_of_len _ _ 8 (by decide)
  · intro P a mc w mint amt ix h
    unfold process_sale_ix at h
    repeat' split at h
    all_goals try exact Option.noConfusion h
    injection h with h
    subst h
    exact take_append_of_len _ _ 8 (by decide)
  · intro P m w ix h
    unfold remove_affiliate_ix at h
    repeat' split at h
    all_goals try exact Option.noConfusion h
    injection h with h
    subst h
    rfl
  · intro P m mint amt ix h
    unfold deposit_escrow_ix at h
    repeat' split at h
    all_goals try exact Option.noConfusion h
    injection h with h
    subst h
    exact take_append_of_len _ _ 8 (by decide)
  · intro P m mint amt ix h
    unfold withdraw_escrow_ix at h
    repeat' split at h
    all_goals try exact Option.noConfusion h
    injection h with h
    subst h
    exact take_append_of_len _ _ 8 (by decide)

set_option maxRecDepth 100000 in
/-- Concrete check of C5: on closed inputs, each builder's instruction data
begins with its own discriminator. -/
theorem discriminator_tags_witness :
    ixInit.data.take 8 = DISCRIMINATORS "initialize_pool" ∧
    ixAdd.data.take 8 = DISCRIMINATORS "add_affiliate" ∧
    ixSale.data.take 8 = DISCRIMINATORS "process_sale" ∧
    ixRem.data.take 8 = DISCRIMINATORS "remove_affiliate" ∧
    ixDep.data.take 8 = DISCRIMINATORS "deposit_escrow" ∧
    ixWith.data.take 8 = DISCRIMINATORS "withdraw_escrow" :=
  ⟨discriminator_tags.2.2.1 testPrims merchantKp mintPk 500 1000000 ixInit rfl,
   discriminator_tags.2.2.2.1 testPrims merchantKp walletPk "AFF001" ixAdd rfl,
   discriminator_tags.2.2.2.2.1 testPrims merchantKp merchantKp.pubkey
     walletPk mintPk 42 ixSale rfl,
   discriminator_tags.2.2.2.2.2.1 testPrims merchantKp walletPk ixRem rfl,
   discriminator_tags.2.2.2.2.2.2.1 testPrims merchantKp mintPk 7 ixDep rfl,
   discriminator_tags.2.2.2.2.2.2.2 testPrims merchantKp mintPk 9 ixWith rfl⟩

/-- Claim C2: for every commission_rate in [0, 65535] and initial_deposit
in [0, 2^64), the argument payload of the instruction built by
initialize_pool_ix (the bytes after the 8-byte discriminator, 2 + 8 bytes
long) decodes back to (commission_rate, initial_deposit) under
little-endian u16 / u64 interpretation: packing then unpacking is the
identity. -/
theorem initialize_pool_pack_roundtrip :
    ∀ (P : PdaPrimitives) (m : Keypair) (mint : List Nat) (r d : Int)
      (ix : Instruction), 0 ≤ r → r < 65536 → 0 ≤ d → d < 2 ^ 64 →
      initialize_pool_ix P m mint r d = some ix →
      ix.data.length = 18 ∧
      (leDecode ((ix.data.drop 8).take 2) : Int) = r ∧
      (leDecode (ix.data.drop 10) : Int) = d := by
  intro P m mint r d ix hr0 hr1 hd0 hd1 h
  have h16 : (2 : ℕ) ^ (8 * 2) = 65536 := by norm_num
  have h64 : (2 : ℕ) ^ (8 * 8) = 18446744073709551616 := by norm_num
  have hi64 : (2 : ℤ) ^ 64 = 18446744073709551616 := by norm_num
  have hrt : r.toNat < 2 ^ (8 * 2) := by rw [h16]; omega
  have hdt : d.toNat < 2 ^ (8 * 8) := by
    rw [h64]
    rw [hi64] at hd1
    omega
  unfold initialize_pool_ix at h
  repeat' split at h
  all_goals try exact Option.noConfusion h
  rename_i x1 d1 heq1 x2 d2 heq2
  rw [packLe, if_pos ⟨hr0, hrt⟩] at heq1
  rw [packLe, if_pos ⟨hd0, hdt⟩] at heq2
  injection heq1 with heq1
  injection heq2 with heq2
  subst heq1
  subst heq2
  injection h with h
  subst h
  have hD : DISCRIMINATORS "initialize_pool" =
      [95, 180, 10, 172, 84, 174, 232, 40] := by decide
  refine ⟨?_, ?_, ?_⟩
  · show (DISCRIMINATORS "initialize_pool" ++ natToLeBytes 2 r.toNat ++
        natToLeBytes 8 d.toNat).length = 18
    rw [hD]
    simp [natToLeBytes_length]
  · show (leDecode (((DISCRIMINATORS "initialize_pool" ++ natToLeBytes 2 r.toNat ++
        natToLeBytes 8 d.toNat).drop 8).take 2) : Int) = r
    rw [hD, List.append_assoc,
      drop_append_of_len _ _ 8 (by decide),
      take_append_of_len _ _ 2 (natToLeBytes_length 2 r.toNat),
      leDecode_natToLeBytes 2 r.toNat hrt,
      Int.toNat_of_nonneg hr0]
  · show (leDecode ((DISCRIMINATORS "initialize_pool" ++ natToLeBytes 2 r.toNat ++
        natToLeBytes 8 d.toNat).drop 10) : Int) = d
    rw [hD,
      drop_append_of_len _ _ 10
        (by simp [natToLeBytes_length]),
      leDecode_natToLeBytes 8 d.toNat hdt,
      Int.toNat_of_nonneg hd0]

set_option maxRecDepth 100000 in
/-- Concrete check of C2: the payload built for commission_rate 500 and
initial_deposit 1000000 decodes back to exactly those values. -/
theorem initialize_pool_pack_roundtrip_witness :
    ixInit.data.length = 18 ∧
    (leDecode ((ixInit.data.drop 8).take 2) : Int) = 500 ∧
    (leDecode (ixInit.data.drop 10) : Int) = 1000000 :=
  initialize_pool_pack_roundtrip testPrims merchantKp mintPk 500 1000000 ixInit
    (by norm_num) (by norm_num) (by norm_num) (by norm_num) rfl

/-- Claim C3: for every merchant and wallet, add_affiliate_ix applied to
ref_id "AFF001" produces an argument payload (the bytes after the 8-byte
discriminator) whose first 4 bytes, read little-endian, equal 6, followed
by the 6 ASCII bytes of "AFF001" — the length prefix sits at the very
start of the payload. -/
theorem add_affiliate_length_prefix :
    ∀ (P : PdaPrimitives) (m : Keypair) (w : List Nat) (ix : Instruction),
      add_affiliate_ix P m w "AFF001" = some ix →
      ix.data.drop 8 = [6, 0, 0, 0] ++ [65, 70, 70, 48, 48, 49] ∧
      leDecode ((ix.data.drop 8).take 4) = 6 := by
  intro P m w ix h
  unfold add_affiliate_ix at h
  dsimp only at h
  repeat' split at h
  all_goals try exact Option.noConfusion h
  rename_i x1 lenB heq
  rw [show packLe 4 (((strBytes "AFF001").length : Nat) : Int) =
      some [6, 0, 0, 0] from by decide] at heq
  injection heq with heq
  subst heq
  injection h with h
  subst h
  exact ⟨rfl, rfl⟩

set_option maxRecDepth 100000 in
/-- Concrete check of C3 on closed inputs. -/
theorem add_affiliate_length_prefix_witness :
    ixAdd.data.drop 8 = [6, 0, 0, 0] ++ [65, 70, 70, 48, 48, 49] ∧
    leDecode ((ixAdd.data.drop 8).take 4) = 6 :=
  add_affiliate_length_prefix testPrims merchantKp walletPk ixAdd rfl

/-! ### Success and failure characterisation of the packing step -/

theorem packLe_eq_some (w : Nat) (v : Int) (h0 : 0 ≤ v)
    (h1 : v.toNat < 2 ^ (8 * w)) :
    packLe w v = some (natToLeBytes w v.toNat) := by
  unfold packLe
  rw [if_pos ⟨h0, h1⟩]

theorem packLe_eq_none (w : Nat) (v : Int) :
    packLe w v = none ↔ v < 0 ∨ (2 : Int) ^ (8 * w) ≤ v := by
  have hcast : ((2 ^ (8 * w) : ℕ) : ℤ) = 2 ^ (8 * w) := by push_cast; ring
  unfold packLe
  constructor
  · intro hn
    split_ifs at hn with hc
    omega
  · intro hviol
    split_ifs with hc
    · exfalso
      omega
    · rfl

/-- If the derivations of initialize_pool_ix go through (witnessed by a
success at arguments 0, 0) and both arguments fit their field widths, the
builder succeeds and its data is the discriminator followed by the
little-endian argument bytes. -/
theorem init_pool_encodes (P : PdaPrimitives) (m : Keypair) (mint : List Nat)
    (r d : Int) (hsome : (initialize_pool_ix P m mint 0 0).isSome = true)
    (hr0 : 0 ≤ r) (hrt : r.toNat < 2 ^ (8 * 2))
    (hd0 : 0 ≤ d) (hdt : d.toNat < 2 ^ (8 * 8)) :
    ∃ ix, initialize_pool_ix P m mint r d = some ix ∧
      ix.data = DISCRIMINATORS "initialize_pool" ++ natToLeBytes 2 r.toNat ++
        natToLeBytes 8 d.toNat := by
  unfold initialize_pool_ix at hsome ⊢
  cases h1 : find_pool_pda P m.pubkey with
  | none =>
    rw [h1] at hsome
    exact absurd hsome (by simp)
  | some pr1 =>
  obtain ⟨pool, b1⟩ := pr1
  rw [h1] at hsome
  dsimp only at hsome ⊢
  cases h2 : find_escrow_authority_pda P pool with
  | none =>
    rw [h2] at hsome
    exact absurd hsome (by simp)
  | some pr2 =>
  obtain ⟨esc, b2⟩ := pr2
  rw [h2] at hsome
  dsimp only at hsome ⊢
  cases h3 : find_associated_token_address P m.pubkey mint with
  | none =>
    rw [h3] at hsome
    exact absurd hsome (by simp)
  | some mu =>
  rw [h3] at hsome
  dsimp only at hsome ⊢
  cases h4 : find_associated_token_address P esc mint with
  | none =>
    rw [h4] at hsome
    exact absurd hsome (by simp)
  | some eu =>
  rw [h4] at hsome
  dsimp only at hsome ⊢
  rw [packLe_eq_some 2 r hr0 hrt, packLe_eq_some 8 d hd0 hdt]
  exact ⟨_, rfl, rfl⟩

/-- If either packing step of initialize_pool_ix fails, the builder raises
(returns none) for every derivation outcome. -/
theorem init_pool_none (P : PdaPrimitives) (m : Keypair) (mint : List Nat)
    (r d : Int) (hp : packLe 2 r = none ∨ packLe 8 d = none) :
    initialize_pool_ix P m mint r d = none := by
  unfold initialize_pool_ix
  repeat' split
  all_goals try rfl
  rcases hp with hp | hp <;> simp_all

/-- Same success helper for process_sale_ix. -/
theorem sale_encodes (P : PdaPrimitives) (a : Keypair) (mc w mint : List Nat)
    (amt : Int) (hsome : (process_sale_ix P a mc w mint 0).isSome = true)
    (h0 : 0 ≤ amt) (ht : amt.toNat < 2 ^ (8 * 8)) :
    ∃ ix, process_sale_ix P a mc w mint amt = some ix ∧
      ix.data = DISCRIMINATORS "process_sale" ++ natToLeBytes 8 amt.toNat := by
  unfold process_sale_ix at hsome ⊢
  cases h1 : find_pool_pda P mc with
  | none =>
    rw [h1] at hsome
    exact absurd hsome (by simp)
  | some pr1 =>
  obtain ⟨pool, b1⟩ := pr1
  rw [h1] at hsome
  dsimp only at hsome ⊢
  cases h2 : find_affiliate_pda P pool w with
  | none =>
    rw [h2] at hsome
    exact absurd hsome (by simp)
  | some pr2 =>
  obtain ⟨aff, b2⟩ := pr2
  rw [h2] at hsome
  dsimp only at hsome ⊢
  cases h3 : find_escrow_authority_pda P pool with
  | none =>
    rw [h3] at hsome
    exact absurd hsome (by simp)
  | some pr3 =>
  obtain ⟨esc, b3⟩ := pr3
  rw [h3] at hsome
  dsimp only at hsome ⊢
  cases h4 : find_associated_token_address P esc mint with
  | none =>
    rw [h4] at hsome
    exact absurd hsome (by simp)
  | some eu =>
  rw [h4] at hsome
  dsimp only at hsome ⊢
  cases h5 : find_associated_token_address P w mint with
  | none =>
    rw [h5] at hsome
    exact absurd hsome (by simp)
  | some au =>
  rw [h5] at hsome
  dsimp only at hsome ⊢
  rw [packLe_eq_some 8 amt h0 ht]
  exact ⟨_, rfl, rfl⟩

/-- Same failure helper for process_sale_ix. -/
theorem sale_none (P : PdaPrimitives) (a : Keypair) (mc w mint : List Nat)
    (amt : Int) (hp : packLe 8 amt = none) :
    process_sale_ix P a mc w mint amt = none := by
  unfold process_sale_ix
  repeat' split
  all_goals try rfl
  simp_all

/-- Same success helper for deposit_escrow_ix. -/
theorem dep_encodes (P : PdaPrimitives) (m : Keypair) (mint : List Nat)
    (amt : Int) (hsome : (deposit_escrow_ix P m mint 0).isSome = true)
    (h0 : 0 ≤ amt) (ht : amt.toNat < 2 ^ (8 * 8)) :
    ∃ ix, deposit_escrow_ix P m mint amt = some ix ∧
      ix.data = DISCRIMINATORS "deposit_escrow" ++ natToLeBytes 8 amt.toNat := by
  unfold deposit_escrow_ix at hsome ⊢
  cases h1 : find_pool_pda P m.pubkey with
  | none =>
    rw [h1] at hsome
    exact absurd hsome (by simp)
  | some pr1 =>
  obtain ⟨pool, b1⟩ := pr1
  rw [h1] at hsome
  dsimp only at hsome ⊢
  cases h2 : find_escrow_authority_pda P pool with
  | none =>
    rw [h2] at hsome
    exact absurd hsome (by simp)
  | some pr2 =>
  obtain ⟨esc, b2⟩ := pr2
  rw [h2] at hsome
  dsimp only at hsome ⊢
  cases h3 : find_associated_token_address P m.pubkey mint with
  | none =>
    rw [h3] at hsome
    exact absurd hsome (by simp)
  | some mu =>
  rw [h3] at hsome
  dsimp only at hsome ⊢
  cases h4 : find_associated_token_address P esc mint with
  | none =>
    rw [h4] at hsome
    exact absurd hsome (by simp)
  | some eu =>
  rw [h4] at hsome
  dsimp only at hsome ⊢
  rw [packLe_eq_some 8 amt h0 ht]
  exact ⟨_, rfl, rfl⟩

/-- Same failure helper for deposit_escrow_ix. -/
theorem dep_none (P : PdaPrimitives) (m : Keypair) (mint : List Nat)
    (amt : Int) (hp : packLe 8 amt = none) :
    deposit_escrow_ix P m mint amt = none := by
  unfold deposit_escrow_ix
  repeat' split
  all_goals try rfl
  simp_all

/-- Same success helper for withdraw_escrow_ix. -/
theorem with_encodes (P : PdaPrimitives) (m : Keypair) (mint : List Nat)
    (amt : Int) (hsome : (withdraw_escrow_ix P m mint 0).isSome = true)
    (h0 : 0 ≤ amt) (ht : amt.toNat < 2 ^ (8 * 8)) :
    ∃ ix, withdraw_escrow_ix P m mint amt = some ix ∧
      ix.data = DISCRIMINATORS "withdraw_escrow" ++ natToLeBytes 8 amt.toNat := by
  unfold withdraw_escrow_ix at hsome ⊢
  cases h1 : find_pool_pda P m.pubkey with
  | none =>
    rw [h1] at hsome
    exact absurd hsome (by simp)
  | some pr1 =>
  obtain ⟨pool, b1⟩ := pr1
  rw [h1] at hsome
  dsimp only at hsome ⊢
  cases h2 : find_escrow_authority_pda P pool with
  | none =>
    rw [h2] at hsome
    exact absurd hsome (by simp)
  | some pr2 =>
  obtain ⟨esc, b2⟩ := pr2
  rw [h2] at hsome
  dsimp only at hsome ⊢
  cases h3 : find_associated_token_address P m.pubkey mint with
  | none =>
    rw [h3] at hsome
    exact absurd hsome (by simp)
  | some mu =>
  rw [h3] at hsome
  dsimp only at hsome ⊢
  cases h4 : find_associated_token_address P esc mint with
  | none =>
    rw [h4] at hsome
    exact absurd hsome (by simp)
  | some eu =>
  rw [h4] at hsome
  dsimp only at hsome ⊢
  rw [packLe_eq_some 8 amt h0 ht]
  exact ⟨_, rfl, rfl⟩

/-- Same failure helper for withdraw_escrow_ix. -/
theorem with_none (P : PdaPrimitives) (m : Keypair) (mint : List Nat)
    (amt : Int) (hp : packLe 8 amt = none) :
    withdraw_escrow_ix P m mint amt = none := by
  unfold withdraw_escrow_ix
  repeat' split
  all_goals try rfl
  simp_all

/-- Claim C7: initialize_pool_ix encodes commission_rate 0 and 10000
without raising, and it performs no upper-bound validation: every
commission_rate above 10000 that still fits the u16 field is encoded
faithfully (its payload bytes are the little-endian encoding of the value)
rather than rejected.  The hypothesis on arguments (0, 0) only states that
the address derivations go through. -/
theorem encoder_no_range_check :
    ∀ (P : PdaPrimitives) (m : Keypair) (mint : List Nat) (r d : Int),
      0 ≤ d → d < 2 ^ 64 → 10000 < r → r ≤ 65535 →
      (initialize_pool_ix P m mint 0 0).isSome = true →
      (initialize_pool_ix P m mint 0 d).isSome = true ∧
      (initialize_pool_ix P m mint 10000 d).isSome = true ∧
      ∃ ix, initialize_pool_ix P m mint r d = some ix ∧
        (ix.data.drop 8).take 2 = natToLeBytes 2 r.toNat := by
  intro P m mint r d hd0 hd1 hr1 hr2 hsome
  have h16 : (2 : ℕ) ^ (8 * 2) = 65536 := by norm_num
  have h64 : (2 : ℕ) ^ (8 * 8) = 18446744073709551616 := by norm_num
  have hi64 : (2 : ℤ) ^ 64 = 18446744073709551616 := by norm_num
  rw [hi64] at hd1
  have hdt : d.toNat < 2 ^ (8 * 8) := by rw [h64]; omega
  have hrt : r.toNat < 2 ^ (8 * 2) := by rw [h16]; omega
  have hr0 : 0 ≤ r := by omega
  refine ⟨?_, ?_, ?_⟩
  · obtain ⟨ix, hix, _⟩ :=
      init_pool_encodes P m mint 0 d hsome (by decide) (by decide) hd0 hdt
    rw [hix]
    rfl
  · obtain ⟨ix, hix, _⟩ :=
      init_pool_encodes P m mint 10000 d hsome (by decide) (by decide) hd0 hdt
    rw [hix]
    rfl
  · obtain ⟨ix, hix, hdata⟩ := init_pool_encodes P m mint r d hsome hr0 hrt hd0 hdt
    refine ⟨ix, hix, ?_⟩
    rw [hdata, show DISCRIMINATORS "initialize_pool" =
          [95, 180, 10, 172, 84, 174, 232, 40] from by decide,
      List.append_assoc, drop_append_of_len _ _ 8 (by decide),
      take_append_of_len _ _ 2 (natToLeBytes_length 2 r.toNat)]

set_option maxRecDepth 100000 in
/-- Concrete check of C7 at commission_rate 10001: encoded, not rejected. -/
theorem encoder_no_range_check_witness :
    (initialize_pool_ix testPrims merchantKp mintPk 0 0).isSome = true ∧
    (initialize_pool_ix testPrims merchantKp mintPk 10000 0).isSome = true ∧
    ∃ ix, initialize_pool_ix testPrims merchantKp mintPk 10001 0 = some ix ∧
      (ix.data.drop 8).take 2 = natToLeBytes 2 (10001 : Int).toNat :=
  encoder_no_range_check testPrims merchantKp mintPk 10001 0 (by norm_num)
    (by norm_num) (by norm_num) (by norm_num) rfl

/-- Claim C10: modelling `struct.pack` errors, initialize_pool_ix raises
(returns none) exactly when commission_rate is outside [0, 65535] or
initial_deposit is outside [0, 2^64); within those widths it never raises.
The u64 amount arguments of process_sale_ix, deposit_escrow_ix and
withdraw_escrow_ix behave the same way.  Each part assumes the builder's
address derivations go through (witnessed by success at amount 0),
since a derivation failure would also surface as an exception. -/
theorem width_bound_raises :
    ∀ (P : PdaPrimitives) (m a : Keypair) (mc w mint : List Nat)
      (r d amt : Int),
      ((initialize_pool_ix P m mint 0 0).isSome = true →
        (initialize_pool_ix P m mint r d = none ↔
          (r < 0 ∨ 65535 < r ∨ d < 0 ∨ 2 ^ 64 ≤ d))) ∧
      ((process_sale_ix P a mc w mint 0).isSome = true →
        (process_sale_ix P a mc w mint amt = none ↔
          (amt < 0 ∨ 2 ^ 64 ≤ amt))) ∧
      ((deposit_escrow_ix P m mint 0).isSome = true →
        (deposit_escrow_ix P m mint amt = none ↔
          (amt < 0 ∨ 2 ^ 64 ≤ amt))) ∧
      ((withdraw_escrow_ix P m mint 0).isSome = true →
        (withdraw_escrow_ix P m mint amt = none ↔
          (amt < 0 ∨ 2 ^ 64 ≤ amt))) := by
  intro P m a mc w mint r d amt
  have h16 : (2 : ℕ) ^ (8 * 2) = 65536 := by norm_num
  have h64 : (2 : ℕ) ^ (8 * 8) = 18446744073709551616 := by norm_num
  have hi16 : (2 : ℤ) ^ (8 * 2) = 65536 := by norm_num
  have hi64 : (2 : ℤ) ^ 64 = 18446744073709551616 := by norm_num
  have hi64w : (2 : ℤ) ^ (8 * 8) = 18446744073709551616 := by norm_num
  refine ⟨?_, ?_, ?_, ?_⟩
  · intro hsome
    constructor
    · intro hnone
      by_contra hc
      push_neg at hc
      obtain ⟨hc1, hc2, hc3, hc4⟩ := hc
      rw [hi64] at hc4
      obtain ⟨ix, hix, _⟩ := init_pool_encodes P m mint r d hsome hc1
        (by rw [h16]; omega) hc3 (by rw [h64]; omega)
      rw [hix] at hnone
      exact Option.noConfusion hnone
    · intro hviol
      apply init_pool_none
      rcases hviol with hv | hv | hv | hv
      · exact Or.inl ((packLe_eq_none 2 r).mpr (Or.inl hv))
      · exact Or.inl ((packLe_eq_none 2 r).mpr (Or.inr (by omega)))
      · exact Or.inr ((packLe_eq_none 8 d).mpr (Or.inl hv))
      · exact Or.inr ((packLe_eq_none 8 d).mpr (Or.inr (by omega)))
  · intro hsome
    constructor
    · intro hnone
      by_contra hc
      push_neg at hc
      obtain ⟨hc1, hc2⟩ := hc
      rw [hi64] at hc2
      obtain ⟨ix, hix, _⟩ := sale_encodes P a mc w mint amt hsome hc1
        (by rw [h64]; omega)
      rw [hix] at hnone
      exact Option.noConfusion hnone
    · intro hviol
      apply sale_none
      rcases hviol with hv | hv
      · exact (packLe_eq_none 8 amt).mpr (Or.inl hv)
      · exact (packLe_eq_none 8 amt).mpr (Or.inr (by omega))
  · intro hsome
    constructor
    · intro hnone
      by_contra hc
      push_neg at hc
      obtain ⟨hc1, hc2⟩ := hc
      rw [hi64] at hc2
      obtain ⟨ix, hix, _⟩ := dep_encodes P m mint amt hsome hc1
        (by rw [h64]; omega)
      rw [hix] at hnone
      exact Option.noConfusion hnone
    · intro hviol
      apply dep_none
      rcases hviol with hv | hv
      · exact (packLe_eq_none 8 amt).mpr (Or.inl hv)
      · exact (packLe_eq_none 8 amt).mpr (Or.inr (by omega))
  · intro hsome
    constructor
    · intro hnone
      by_contra hc
      push_neg at hc
      obtain ⟨hc1, hc2⟩ := hc
      rw [hi64] at hc2
      obtain ⟨ix, hix, _⟩ := with_encodes P m mint amt hsome hc1
        (by rw [h64]; omega)
      rw [hix] at hnone
      exact Option.noConfusion hnone
    · intro hviol
      apply with_none
      rcases hviol with hv | hv
      · exact (packLe_eq_none 8 amt).mpr (Or.inl hv)
      · exact (packLe_eq_none 8 amt).mpr (Or.inr (by omega))

set_option maxRecDepth 100000 in
/-- Concrete check of C10: a negative commission rate, and u64 amounts of
2^64 or a negative value, make the builders raise. -/
theorem width_bound_raises_witness :
    initialize_pool_ix testPrims merchantKp mintPk (-1) 0 = none ∧
    process_sale_ix testPrims merchantKp merchantKp.pubkey walletPk mintPk
      18446744073709551616 = none ∧
    deposit_escrow_ix testPrims merchantKp mintPk (-5) = none ∧
    withdraw_escrow_ix testPrims merchantKp mintPk 18446744073709551616 = none := by
  refine ⟨?_, ?_, ?_, ?_⟩
  · exact ((width_bound_raises testPrims merchantKp merchantKp
      merchantKp.pubkey walletPk mintPk (-1) 0 0).1 rfl).mpr (by norm_num)
  · exact ((width_bound_raises testPrims merchantKp merchantKp
      merchantKp.pubkey walletPk mintPk 0 0 18446744073709551616).2.1 rfl).mpr
      (by norm_num)
  · exact ((width_bound_raises testPrims merchantKp merchantKp
      merchantKp.pubkey walletPk mintPk 0 0 (-5)).2.2.1 rfl).mpr (by norm_num)
  · exact ((width_bound_raises testPrims merchantKp merchantKp
      merchantKp.pubkey walletPk mintPk 0 0 18446744073709551616).2.2.2 rfl).mpr
      (by norm_num)

end Redio

namespace Genpy

/-! ### Dictionary lemmas -/

theorem jlookup_jset_ne (kvs : List (String × JVal)) (k k2 : String) (v : JVal)
    (h : k ≠ k2) : jlookup (jset kvs k v) k2 = jlookup kvs k2 := by
  induction kvs with
  | nil => rfl
  | cons kv rest ih =>
    obtain ⟨k1, v1⟩ := kv
    simp only [jset, List.map_cons]
    split_ifs with hk
    · subst hk
      simp only [jlookup, if_neg h]
      exact ih
    · simp only [jlookup]
      by_cases h12 : k1 = k2
      · rw [if_pos h12, if_pos h12]
      · rw [if_neg h12, if_neg h12]
        exact ih

theorem jlookup_jset_self (kvs : List (String × JVal)) (k : String) (v : JVal)
    (h : (jlookup kvs k).isSome = true) :
    jlookup (jset kvs k v) k = some v := by
  induction kvs with
  | nil => exact absurd h (by simp [jlookup])
  | cons kv rest ih =>
    obtain ⟨k1, v1⟩ := kv
    simp only [jset, List.map_cons]
    by_cases hk : k1 = k
    · rw [if_pos hk]
      simp [jlookup]
    · rw [if_neg hk]
      simp only [jlookup, if_neg hk]
      apply ih
      simpa [jlookup, if_neg hk] using h

theorem jlookup_jremove_self (kvs : List (String × JVal)) (k : String) :
    jlookup (jremove kvs k) k = none := by
  induction kvs with
  | nil => rfl
  | cons kv rest ih =>
    obtain ⟨k1, v1⟩ := kv
    by_cases hk : k1 = k
    · simp only [jremove, if_pos hk]
      exact ih
    · simp only [jremove, if_neg hk, jlookup, if_neg hk]
      exact ih

theorem jlookup_jremove_ne (kvs : List (String × JVal)) (k k2 : String)
    (h : k ≠ k2) : jlookup (jremove kvs k) k2 = jlookup kvs k2 := by
  induction kvs with
  | nil => rfl
  | cons kv rest ih =>
    obtain ⟨k1, v1⟩ := kv
    by_cases hk : k1 = k
    · subst hk
      simp only [jremove, if_pos rfl, jlookup, if_neg h]
      exact ih
    · by_cases h12 : k1 = k2
      · simp [jremove, hk, jlookup, h12, Ne.symm h]
      · simp only [jremove, if_neg hk, jlookup, if_neg h12]
        exact ih

theorem jlookup_append_single (kvs : List (String × JVal)) (k : String)
    (v : JVal) (hs : jlookup kvs k = none) :
    jlookup (kvs ++ [(k, v)]) k = some v := by
  induction kvs with
  | nil => simp [jlookup]
  | cons kv rest ih =>
    obtain ⟨k1, v1⟩ := kv
    by_cases hk : k1 = k
    · simp [jlookup, hk] at hs
    · simp only [jlookup, if_neg hk] at hs
      simp only [List.cons_append, jlookup, if_neg hk]
      exact ih hs

theorem jlookup_append_single_ne (kvs : List (String × JVal)) (k k2 : String)
    (v : JVal) (h : k ≠ k2) :
    jlookup (kvs ++ [(k, v)]) k2 = jlookup kvs k2 := by
  induction kvs with
  | nil => simp [jlookup, if_neg h]
  | cons kv rest ih =>
    obtain ⟨k1, v1⟩ := kv
    by_cases h12 : k1 = k2
    · simp [jlookup, h12]
    · simp only [List.cons_append, jlookup, if_neg h12]
      exact ih

theorem jlookup_jsetdefault_self (kvs : List (String × JVal)) (k : String)
    (v : JVal) :
    jlookup (jsetdefault kvs k v) k = some ((jlookup kvs k).getD v) := by
  unfold jsetdefault
  split_ifs with hs
  · obtain ⟨v0, hv0⟩ := Option.isSome_iff_exists.mp hs
    rw [hv0]
    rfl
  · rw [Option.not_isSome_iff_eq_none] at hs
    rw [hs, Option.getD_none]
    exact jlookup_append_single kvs k v hs

theorem jlookup_jsetdefault_ne (kvs : List (String × JVal)) (k k2 : String)
    (v : JVal) (h : k ≠ k2) :
    jlookup (jsetdefault kvs k v) k2 = jlookup kvs k2 := by
  unfold jsetdefault
  split_ifs with hs
  · rfl
  · exact jlookup_append_single_ne kvs k k2 v h

theorem jlookup_filter_key (kvs : List (String × JVal)) (k : String)
    (hk : k ∈ allowedKeys) :
    jlookup (jfilterAllowed kvs) k = jlookup kvs k := by
  induction kvs with
  | nil => rfl
  | cons kv rest ih =>
    obtain ⟨k1, v1⟩ := kv
    by_cases h1 : k1 ∈ allowedKeys
    · by_cases h12 : k1 = k
      · simp [jfilterAllowed, h1, hk, jlookup, h12]
      · simp only [jfilterAllowed, if_pos h1, jlookup, if_neg h12]
        exact ih
    · have h1k : ¬ k1 = k := fun he => h1 (he ▸ hk)
      simp only [jfilterAllowed, if_neg h1, jlookup, if_neg h1k]
      exact ih

theorem mem_jset (kvs : List (String × JVal)) (k k2 : String) (v v2 : JVal)
    (h : (k2, v2) ∈ jset kvs k v) : (k2 = k ∧ v2 = v) ∨ (k2, v2) ∈ kvs := by
  induction kvs with
  | nil => exact absurd h (by simp [jset])
  | cons kv rest ih =>
    obtain ⟨k1, v1⟩ := kv
    simp only [jset, List.map_cons, List.mem_cons] at h
    rcases h with h | h
    · split_ifs at h with hk
      · left
        exact ⟨congrArg Prod.fst h, congrArg Prod.snd h⟩
      · right
        simp [h]
    · rcases ih h with h2 | h2
      · exact Or.inl h2
      · exact Or.inr (List.mem_cons_of_mem _ h2)

theorem mem_jsetdefault (kvs : List (String × JVal)) (k k2 : String)
    (v v2 : JVal) (h : (k2, v2) ∈ jsetdefault kvs k v) :
    (k2, v2) ∈ kvs ∨ (k2 = k ∧ v2 = v) := by
  unfold jsetdefault at h
  split_ifs at h with hs
  · exact Or.inl h
  · rcases List.mem_append.mp h with h2 | h2
    · exact Or.inl h2
    · right
      simp only [List.mem_singleton] at h2
      exact ⟨congrArg Prod.fst h2, congrArg Prod.snd h2⟩

theorem mem_jfilterAllowed (kvs : List (String × JVal)) (k : String)
    (v : JVal) (h : (k, v) ∈ jfilterAllowed kvs) : k ∈ allowedKeys := by
  induction kvs with
  | nil => exact absurd h (by simp [jfilterAllowed])
  | cons kv rest ih =>
    obtain ⟨k1, v1⟩ := kv
    by_cases h1 : k1 ∈ allowedKeys
    · simp only [jfilterAllowed, if_pos h1, List.mem_cons] at h
      rcases h with h | h
      · rw [show k = k1 from congrArg Prod.fst h]
        exact h1
      · exact ih h
    · simp only [jfilterAllowed, if_neg h1] at h
      exact ih h

/-! ### Step lemmas for the pda massaging -/

theorem jlookup_seedsStep_ne (pkvs : List (String × JVal)) (k2 : String)
    (h : k2 ≠ "seeds") : jlookup (seedsStep pkvs) k2 = jlookup pkvs k2 := by
  unfold seedsStep
  cases hp : jlookup pkvs "seeds" with
  | none => rfl
  | some val =>
    cases val
    case jarr seeds => exact jlookup_jset_ne _ _ _ _ (Ne.symm h)
    all_goals rfl

theorem jlookup_seedsStep_seeds (pkvs : List (String × JVal))
    (seeds : List JVal) (h : jlookup pkvs "seeds" = some (.jarr seeds)) :
    jlookup (seedsStep pkvs) "seeds" = some (.jarr (seeds.map fixSeed)) := by
  unfold seedsStep
  rw [h]
  exact jlookup_jset_self _ _ _ (by rw [h]; rfl)

theorem jlookup_progStep_ne (pkvs1 : List (String × JVal)) (k2 : String)
    (h : k2 ≠ "program") : jlookup (progStep pkvs1) k2 = jlookup pkvs1 k2 := by
  unfold progStep
  cases hp : jlookup pkvs1 "program" with
  | none => rfl
  | some val =>
    cases val
    case jobj prog =>
      dsimp only
      split_ifs with hkv
      · rfl
      · exact jlookup_jremove_ne _ _ _ (Ne.symm h)
    all_goals exact jlookup_jremove_ne _ _ _ (Ne.symm h)

theorem jlookup_progStep_program (pkvs1 : List (String × JVal)) :
    jlookup (progStep pkvs1) "program" =
      (match jlookup pkvs1 "program" with
       | some (.jobj prog) =>
         if jhas prog "kind" && jhas prog "value" then some (.jobj prog)
         else none
       | some _ => none
       | none => none) := by
  unfold progStep
  cases hp : jlookup pkvs1 "program" with
  | none => exact hp
  | some val =>
    cases val
    case jobj prog =>
      dsimp only
      split_ifs with hkv
      · exact hp
      · exact jlookup_jremove_self _ _
    all_goals exact jlookup_jremove_self _ _

theorem mem_pdaStep (kvs3 : List (String × JVal)) (k : String) (v : JVal)
    (h : (k, v) ∈ pdaStep kvs3) : (k, v) ∈ kvs3 ∨ k = "pda" := by
  revert h
  unfold pdaStep
  cases hp : jlookup kvs3 "pda" with
  | none => exact fun h => Or.inl h
  | some val =>
    cases val
    case jobj pkvs =>
      intro h
      rcases mem_jset _ _ _ _ _ h with ⟨hk, _⟩ | hm
      · exact Or.inr hk
      · exact Or.inl hm
    all_goals exact fun h => Or.inl h

theorem jlookup_pdaStep_ne (kvs3 : List (String × JVal)) (k2 : String)
    (h : k2 ≠ "pda") : jlookup (pdaStep kvs3) k2 = jlookup kvs3 k2 := by
  unfold pdaStep
  cases hp : jlookup kvs3 "pda" with
  | none => rfl
  | some val =>
    cases val
    case jobj pkvs => exact jlookup_jset_ne _ _ _ _ (Ne.symm h)
    all_goals rfl

theorem jlookup_pdaStep_pda (kvs3 : List (String × JVal))
    (pkvs : List (String × JVal))
    (h : jlookup kvs3 "pda" = some (.jobj pkvs)) :
    jlookup (pdaStep kvs3) "pda" = some (.jobj (fixPda pkvs)) := by
  unfold pdaStep
  rw [h]
  exact jlookup_jset_self _ _ _ (by rw [h]; rfl)

/-- Claim C9: for every dictionary-shaped account object, fix_account
returns a dictionary containing only keys from
{name, writable, signer, pda, address}, with writable and signer present
(defaulted to false when missing) and the pda entry massaged by the seed
and program transform; every pda seed of kind "account" with a (string)
path has that path truncated to its first dot-separated component and its
nested "account" field removed; and the pda's "program" entry is removed
unless it is a dictionary containing both a "kind" and a "value" key. -/
theorem fix_account_shape :
    (∀ kvs : List (String × JVal),
      ∃ out, fix_account (.jobj kvs) = .jobj out ∧
        (∀ k v, (k, v) ∈ out → k ∈ allowedKeys) ∧
        jlookup out "writable" =
          some ((jlookup kvs "writable").getD (.jbool false)) ∧
        jlookup out "signer" =
          some ((jlookup kvs "signer").getD (.jbool false)) ∧
        (∀ pkvs, jlookup kvs "pda" = some (.jobj pkvs) →
          jlookup out "pda" = some (.jobj (fixPda pkvs)))) ∧
    (∀ (skvs : List (String × JVal)) (p : String),
      jlookup skvs "kind" = some (.jstr "account") →
      jlookup skvs "path" = some (.jstr p) →
      ∃ sout, fixSeed (.jobj skvs) = .jobj sout ∧
        jlookup sout "path" = some (.jstr (splitFirst p)) ∧
        jlookup sout "account" = none) ∧
    (∀ (pkvs : List (String × JVal)) (seeds : List JVal),
      jlookup pkvs "seeds" = some (.jarr seeds) →
      jlookup (fixPda pkvs) "seeds" = some (.jarr (seeds.map fixSeed))) ∧
    (∀ (pkvs : List (String × JVal)) (prog : JVal),
      jlookup pkvs "program" = some prog →
      jlookup (fixPda pkvs) "program" =
        (match prog with
         | .jobj pr =>
           if jhas pr "kind" && jhas pr "value" then some prog else none
         | _ => none)) := by
  refine ⟨?_, ?_, ?_, ?_⟩
  · intro kvs
    refine ⟨_, rfl, ?_, ?_, ?_, ?_⟩
    · intro k v hmem
      rcases mem_pdaStep _ _ _ hmem with hm | hk
      · rcases mem_jsetdefault _ _ _ _ _ hm with hm2 | ⟨hk2, _⟩
        · rcases mem_jsetdefault _ _ _ _ _ hm2 with hm3 | ⟨hk3, _⟩
          · exact mem_jfilterAllowed _ _ _ hm3
          · rw [hk3]
            decide
        · rw [hk2]
          decide
      · rw [hk]
        decide
    · rw [jlookup_pdaStep_ne _ _ (by decide),
        jlookup_jsetdefault_ne _ _ _ _ (by decide),
        jlookup_jsetdefault_self,
        jlookup_filter_key _ _ (by decide)]
    · rw [jlookup_pdaStep_ne _ _ (by decide),
        jlookup_jsetdefault_self,
        jlookup_jsetdefault_ne _ _ _ _ (by decide),
        jlookup_filter_key _ _ (by decide)]
    · intro pkvs hp
      apply jlookup_pdaStep_pda
      rw [jlookup_jsetdefault_ne _ _ _ _ (by decide),
        jlookup_jsetdefault_ne _ _ _ _ (by decide),
        jlookup_filter_key _ _ (by decide)]
      exact hp
  · intro skvs p hk hp
    have he : fixSeed (.jobj skvs) =
        .jobj (jremove (jset skvs "path" (.jstr (splitFirst p))) "account") := by
      unfold fixSeed
      dsimp only
      rw [hk, hp]
      rfl
    refine ⟨_, he, ?_, ?_⟩
    · rw [jlookup_jremove_ne _ _ _ (by decide)]
      exact jlookup_jset_self _ _ _ (by rw [hp]; rfl)
    · exact jlookup_jremove_self _ _
  · intro pkvs seeds hs
    unfold fixPda
    rw [jlookup_progStep_ne _ _ (by decide)]
    exact jlookup_seedsStep_seeds _ _ hs
  · intro pkvs prog hp
    unfold fixPda
    rw [jlookup_progStep_program, jlookup_seedsStep_ne _ _ (by decide), hp]
    cases prog <;> rfl

/-- Concrete check of C9: a representative account dictionary with an
unexpected "docs" key, a missing writable/signer pair, a dotted seed path,
a nested seed "account" field, and a malformed "program" override. -/
theorem fix_account_shape_witness :
    (∃ out, fix_account (.jobj acctEx) = .jobj out ∧
      (∀ k v, (k, v) ∈ out → k ∈ allowedKeys) ∧
      jlookup out "writable" =
        some ((jlookup acctEx "writable").getD (.jbool false)) ∧
      jlookup out "signer" =
        some ((jlookup acctEx "signer").getD (.jbool false)) ∧
      (∀ pkvs, jlookup acctEx "pda" = some (.jobj pkvs) →
        jlookup out "pda" = some (.jobj (fixPda pkvs)))) ∧
    (∃ sout, fixSeed (.jobj seedEx) = .jobj sout ∧
      jlookup sout "path" = some (.jstr (splitFirst "pool.merchant")) ∧
      jlookup sout "account" = none) ∧
    jlookup (fixPda pdaEx) "seeds" =
      some (.jarr ([JVal.jobj seedEx].map fixSeed)) ∧
    jlookup (fixPda pdaEx) "program" = none :=
  ⟨fix_account_shape.1 acctEx,
   fix_account_shape.2.1 seedEx "pool.merchant" rfl rfl,
   fix_account_shape.2.2.1 pdaEx [JVal.jobj seedEx] rfl,
   fix_account_shape.2.2.2 pdaEx (.jstr "bad") rfl⟩

end Genpy
